import Mathlib

/-!
Verification of the order-volume forecasting engine of a service-desk
desktop application (`utils.py`, class `ForecastWindow`).

The embedding below mirrors `ForecastWindow.calculate_forecast` and
`ForecastWindow.recursive_forecast`:

* a month key is the Python tuple `(date.year, date.month)`, embedded as
  `ℤ × ℤ` with the tuple's lexicographic order;
* Python floats produced by `statistics.mean` and `round(x, 2)` are
  idealized as exact rationals, with `round` as round-half-to-even
  (CPython's rounding mode);
* date strings are embedded as `List Char` and parsed following
  CPython's `datetime.strptime(s, "%Y-%m-%d")` (exactly four year
  digits, one or two month digits with value 1..12, one or two day
  digits, day validated against the Gregorian month length);
* the `dict` `monthly_counts` is embedded extensionally: the keys are
  the distinct parsed month keys and each key maps to its multiplicity,
  which is exactly the mapping the Python accumulation loop builds
  (the dict's insertion order is never observed: the code only uses
  membership, indexing and `sorted(keys)`);
* the recursion of `recursive_forecast` is expressed structurally with
  a fuel argument; the fuel is an upper bound on the recursion depth
  and the development proves the result is independent of any
  sufficiently large fuel, which is the termination argument of the
  Python code made explicit.
-/

namespace CarService

/-- A calendar month key `(year, month)`: the Python tuple
`(date.year, date.month)`. -/
abbrev MonthKey := ℤ × ℤ

/-- Boolean equality of month keys, fixed to the decidable-equality
form so that one instance is used consistently throughout. -/
instance : BEq MonthKey := instBEqOfDecidableEq

instance : LawfulBEq MonthKey where
  eq_of_beq h := of_decide_eq_true h
  rfl := decide_eq_true rfl

/-- Python tuple `<` on `(year, month)` pairs: lexicographic order,
used by `month < sorted_months[0]` and by `sorted(...)`. -/
def keyLt (a b : MonthKey) : Prop :=
  a.1 < b.1 ∨ (a.1 = b.1 ∧ a.2 < b.2)

instance (a b : MonthKey) : Decidable (keyLt a b) := by
  unfold keyLt; infer_instance

/-- Python tuple `<=` on `(year, month)` pairs, the order used to embed
`sorted(monthly_counts.keys())`. -/
def keyLe (a b : MonthKey) : Prop :=
  a.1 < b.1 ∨ (a.1 = b.1 ∧ a.2 ≤ b.2)

instance (a b : MonthKey) : Decidable (keyLe a b) := by
  unfold keyLe; infer_instance

/-- Linear index of a calendar month; for month components in `1..12`
this is order-isomorphic to the tuple order. -/
def monthIdx (k : MonthKey) : ℤ := 12 * k.1 + k.2

/-- The month component is a real calendar month. -/
def inRangeMonth (k : MonthKey) : Prop := 1 ≤ k.2 ∧ k.2 ≤ 12

instance (k : MonthKey) : Decidable (inRangeMonth k) := by
  unfold inRangeMonth; infer_instance

/-- One step of the calendar arithmetic in `recursive_forecast`:
`current_month -= 1; if current_month == 0: current_month = 12;
current_year -= 1`. -/
def prevMonth (k : MonthKey) : MonthKey :=
  if k.2 - 1 = 0 then (k.1 - 1, 12) else (k.1, k.2 - 1)

/-- The `window_size` calendar months immediately preceding `t`, newest
first: the list `prev_months` built by the loop in `recursive_forecast`. -/
def prevMonths (t : MonthKey) : ℕ → List MonthKey
  | 0 => []
  | w + 1 => prevMonth t :: prevMonths (prevMonth t) w

/-- Floor of a rational, written with explicit integer division so that
it evaluates by kernel reduction (`/` on `ℤ` is Euclidean division,
which is floor division for the positive denominator). -/
def ratFloor (q : ℚ) : ℤ := q.num / (q.den : ℤ)

/-- Round a rational to the nearest integer, ties to even: the rounding
CPython's `round` applies. -/
def roundHalfEven (q : ℚ) : ℤ :=
  let f := ratFloor q
  if q - f < 1 / 2 then f
  else if 1 / 2 < q - f then f + 1
  else if f % 2 = 0 then f else f + 1

/-- Python `round(x, 2)`, idealized over exact rationals. -/
def round2 (q : ℚ) : ℚ := (roundHalfEven (q * 100) : ℚ) / 100

/-- Python `statistics.mean`, idealized over exact rationals (CPython
sums exactly before converting to float).  A mean of an empty list is
never taken in reachable calls. -/
def mean (l : List ℚ) : ℚ := l.sum / (l.length : ℚ)

/-- Gregorian leap-year rule, as validated by `datetime.date`. -/
def isLeap (y : ℤ) : Bool := y % 4 == 0 && (y % 100 != 0 || y % 400 == 0)

/-- Number of days of month `m` of year `y`, as validated by
`datetime.date`. -/
def daysInMonth (y m : ℤ) : ℤ :=
  if m = 2 then (if isLeap y then 29 else 28)
  else if m = 4 ∨ m = 6 ∨ m = 9 ∨ m = 11 then 30
  else 31

/-- Split a character list at every `-`, the shape imposed by the
literal dashes of the format string `"%Y-%m-%d"`. -/
def splitDash : List Char → List (List Char)
  | [] => [[]]
  | c :: rest =>
    if c = '-' then [] :: splitDash rest
    else
      match splitDash rest with
      | [] => [[c]]
      | g :: gs => (c :: g) :: gs

/-- Numeric value of a digit string. -/
def digitsVal (s : List Char) : ℕ :=
  s.foldl (fun n c => 10 * n + (c.toNat - Char.toNat '0')) 0

/-- CPython's `datetime.strptime(s, "%Y-%m-%d").date()`: exactly four
year digits, one or two month digits, one or two day digits (the `%m`
and `%d` patterns), then range validation by the `datetime` constructor
(year at least 1, month 1..12, day within the Gregorian month).
Returns `none` exactly when the Python call raises `ValueError`. -/
def parseDate (s : List Char) : Option (ℤ × ℤ × ℤ) :=
  match splitDash s with
  | [ys, ms, ds] =>
    if ys.length = 4 ∧ ys.all Char.isDigit = true ∧
       1 ≤ ms.length ∧ ms.length ≤ 2 ∧ ms.all Char.isDigit = true ∧
       1 ≤ ds.length ∧ ds.length ≤ 2 ∧ ds.all Char.isDigit = true then
      let y : ℤ := (digitsVal ys : ℤ)
      let m : ℤ := (digitsVal ms : ℤ)
      let d : ℤ := (digitsVal ds : ℤ)
      if 1 ≤ y ∧ 1 ≤ m ∧ m ≤ 12 ∧ 1 ≤ d ∧ d ≤ daysInMonth y m then
        some (y, m, d)
      else none
    else none
  | _ => none

/-- The month keys of the dates that parse, in input order: the values
`(date.year, date.month)` produced inside the `try` of the aggregation
loop, with `ValueError` rows skipped by the `except: continue`. -/
def parsedMonths (dates : List (List Char)) : List MonthKey :=
  dates.filterMap fun s => (parseDate s).map fun d => (d.1, d.2.1)

/-- `sorted(monthly_counts.keys())`: the distinct observed month keys in
chronological (tuple) order. -/
def sortedMonths (dates : List (List Char)) : List MonthKey :=
  List.insertionSort keyLe (parsedMonths dates).dedup

/-- The dict `monthly_counts` as a key-value list: each distinct parsed
month key paired with its multiplicity, which is the mapping the Python
loop `monthly_counts[month_key] = monthly_counts.get(month_key, 0) + 1`
accumulates.  (The dict's insertion order is never observed.) -/
def monthly_counts (dates : List (List Char)) : List (MonthKey × ℕ) :=
  (sortedMonths dates).map fun k => (k, (parsedMonths dates).count k)

/-- `counts = [monthly_counts[month] for month in sorted_months]`. -/
def countsList (dates : List (List Char)) : List ℕ :=
  (sortedMonths dates).map fun k => (parsedMonths dates).count k

/-- The list `moving_averages`: for each `i` from `window_size - 1` to
`len(counts) - 1`, `round(mean(counts[i - window_size + 1 : i + 1]), 2)`. -/
def movingAverages (cs : List ℕ) (w : ℕ) : List ℚ :=
  (List.range' (w - 1) (cs.length - (w - 1))).map fun i =>
    round2 (mean (((cs.drop (i + 1 - w)).take w).map fun c => (c : ℚ)))

/-- Resolution of one predecessor month inside `recursive_forecast`, in
the code's order of checks: observed count if the month is a dict key,
else 0 if it precedes `sorted_months[0]`, else the recursive forecast
(`rec`) of that month. -/
def resolveMonth (mc : List (MonthKey × ℕ)) (first : MonthKey)
    (rec : MonthKey → ℚ) (m : MonthKey) : ℚ :=
  match mc.lookup m with
  | some c => (c : ℚ)
  | none => if keyLt m first then 0 else rec m

/-- Fuel-indexed unfolding of `recursive_forecast`: at positive fuel it
computes `round(mean(values), 2)` over the resolved predecessor months,
recursing with one unit of fuel less.  `recFuel` below always supplies
enough fuel, and `recAux_stable` shows any sufficient fuel gives the
same value. -/
def recAux (mc : List (MonthKey × ℕ)) (first : MonthKey) (w : ℕ) :
    ℕ → MonthKey → ℚ
  | 0, _ => 0
  | fuel + 1, t =>
    round2 (mean ((prevMonths t w).map
      (resolveMonth mc first (recAux mc first w fuel))))

/-- Fuel sufficient for target `t` with earliest observed month `first`:
one more than the month distance from `first` to `t` (every recursive
call strictly decreases that distance, and months below `first` stop
the recursion). -/
def recFuel (first t : MonthKey) : ℕ :=
  (monthIdx t - monthIdx first).toNat + 1

/-- `ForecastWindow.recursive_forecast(sorted_months, monthly_counts,
target_date, window_size)`. -/
def recursive_forecast (sorted_months : List MonthKey)
    (mc : List (MonthKey × ℕ)) (target : MonthKey) (w : ℕ) : ℚ :=
  recAux mc (sorted_months.headD ((0 : ℤ), (0 : ℤ))) w
    (recFuel (sorted_months.headD ((0 : ℤ), (0 : ℤ))) target) target

/-- The forecast computed for a target month that is a dict key, at
position `target_index` in `sorted_months`: the three-way branch of
`calculate_forecast`. -/
def observedForecast (dates : List (List Char)) (target : MonthKey)
    (w : ℕ) : ℚ :=
  let idx := (sortedMonths dates).indexOf target
  if w ≤ idx then (movingAverages (countsList dates) w).getD (idx - w) 0
  else if 0 < idx then
    round2 (mean (((countsList dates).take idx).map fun c => (c : ℚ)))
  else 0

/-- The report assembled by `calculate_forecast`: the zipped history,
the raw `forecast` variable, the displayed `max(forecast, 0)`, and the
`actual`/`deviation` pair present exactly for observed targets. -/
structure ForecastReport where
  history : List (MonthKey × ℕ)
  forecast : ℚ
  displayed : ℚ
  actual : Option ℕ
  deviation : Option ℚ
deriving DecidableEq

/-- Outcome of one run of `calculate_forecast`: the early "Нет данных"
return, the early "Недостаточно данных" return carrying the required
and available month counts, or a computed report. -/
inductive Outcome where
  | noData : Outcome
  | insufficient (required available : ℕ) : Outcome
  | report (r : ForecastReport) : Outcome
deriving DecidableEq

/-- True exactly on the computed-report outcome. -/
def Outcome.isComputed : Outcome → Bool
  | .report _ => true
  | _ => false

/-- `ForecastWindow.calculate_forecast`, as a function of the raw date
strings read from storage and the three user parameters. -/
def calculate_forecast (dates : List (List Char)) (selYear selMonth : ℤ)
    (w : ℕ) : Outcome :=
  if dates = [] then .noData
  else if (countsList dates).length < w then
    .insufficient w (countsList dates).length
  else
    match (monthly_counts dates).lookup (selYear, selMonth) with
    | some actual =>
      .report ⟨(sortedMonths dates).zip (countsList dates),
        observedForecast dates (selYear, selMonth) w,
        max (observedForecast dates (selYear, selMonth) w) 0,
        some actual,
        some (if actual ≠ 0 then
          (observedForecast dates (selYear, selMonth) w - (actual : ℚ)) /
            (actual : ℚ) * 100
        else 0)⟩
    | none =>
      .report ⟨(sortedMonths dates).zip (countsList dates),
        recursive_forecast (sortedMonths dates) (monthly_counts dates)
          (selYear, selMonth) w,
        max (recursive_forecast (sortedMonths dates) (monthly_counts dates)
          (selYear, selMonth) w) 0,
        none, none⟩

end CarService

namespace CarService

/-! ### Calendar arithmetic -/

theorem monthIdx_prevMonth (k : MonthKey) :
    monthIdx (prevMonth k) = monthIdx k - 1 := by
  unfold monthIdx prevMonth
  split <;> simp <;> omega

theorem inRangeMonth_prevMonth {k : MonthKey} (h : inRangeMonth k) :
    inRangeMonth (prevMonth k) := by
  unfold inRangeMonth at *
  unfold prevMonth
  split <;> simp <;> omega

theorem length_prevMonths (t : MonthKey) (w : ℕ) :
    (prevMonths t w).length = w := by
  induction w generalizing t with
  | zero => rfl
  | succ w ih => simp [prevMonths, ih]

theorem monthIdx_lt_of_mem_prevMonths {t m : MonthKey} {w : ℕ}
    (h : m ∈ prevMonths t w) : monthIdx m < monthIdx t := by
  induction w generalizing t with
  | zero => simp [prevMonths] at h
  | succ w ih =>
    simp only [prevMonths, List.mem_cons] at h
    rcases h with rfl | h
    · rw [monthIdx_prevMonth]; omega
    · have := ih h
      rw [monthIdx_prevMonth] at this
      omega

theorem inRangeMonth_of_mem_prevMonths {t m : MonthKey} {w : ℕ}
    (ht : inRangeMonth t) (h : m ∈ prevMonths t w) : inRangeMonth m := by
  induction w generalizing t with
  | zero => simp [prevMonths] at h
  | succ w ih =>
    simp only [prevMonths, List.mem_cons] at h
    rcases h with rfl | h
    · exact inRangeMonth_prevMonth ht
    · exact ih (inRangeMonth_prevMonth ht) h

theorem monthIdx_le_of_not_keyLt {m first : MonthKey}
    (h : ¬ keyLt m first) (hm : inRangeMonth m) (hf : inRangeMonth first) :
    monthIdx first ≤ monthIdx m := by
  unfold keyLt at h
  unfold inRangeMonth at hm hf
  unfold monthIdx
  push_neg at h
  rcases lt_trichotomy m.1 first.1 with h1 | h1 | h1
  · exact absurd h1 (by omega)
  · have := h.2 h1
    omega
  · omega

end CarService

namespace CarService

/-! ### Termination of the recursive backfill

`recAux` consumes one unit of fuel per recursive call.  The lemmas
below show the computed value is the same for every fuel at least
`recFuel first t`, because every recursive call targets a strictly
earlier month and months below `first` resolve without recursion: this
is the well-foundedness of the Python recursion. -/

theorem recFuel_pos (first t : MonthKey) : 1 ≤ recFuel first t := by
  unfold recFuel; omega

theorem recFuel_lt_of_rec {first t m : MonthKey}
    (hm : inRangeMonth m) (hf : inRangeMonth first)
    (hlt : monthIdx m < monthIdx t) (hge : ¬ keyLt m first) :
    recFuel first m < recFuel first t := by
  have h1 := monthIdx_le_of_not_keyLt hge hm hf
  unfold recFuel
  omega

theorem recAux_succ (mc : List (MonthKey × ℕ)) (first : MonthKey)
    (w fuel : ℕ) (t : MonthKey) :
    recAux mc first w (fuel + 1) t =
      round2 (mean ((prevMonths t w).map
        (resolveMonth mc first (recAux mc first w fuel)))) := rfl

theorem recAux_stable (mc : List (MonthKey × ℕ)) {first : MonthKey}
    (hf : inRangeMonth first) (w : ℕ) :
    ∀ n, ∀ t : MonthKey, inRangeMonth t → recFuel first t ≤ n →
      recAux mc first w n t = recAux mc first w (recFuel first t) t := by
  intro n
  induction n using Nat.strong_induction_on with
  | _ n ih =>
    intro t ht hn
    have h1 := recFuel_pos first t
    obtain ⟨n', rfl⟩ : ∃ n', n = n' + 1 := ⟨n - 1, by omega⟩
    obtain ⟨g, hg⟩ : ∃ g, recFuel first t = g + 1 := ⟨recFuel first t - 1, by omega⟩
    rw [hg, recAux_succ, recAux_succ]
    congr 2
    apply List.map_congr_left
    intro m hm
    unfold resolveMonth
    cases hl : mc.lookup m with
    | some c => rfl
    | none =>
      simp only []
      by_cases hk : keyLt m first
      · rw [if_pos hk, if_pos hk]
      · rw [if_neg hk, if_neg hk]
        have hmr : inRangeMonth m := inRangeMonth_of_mem_prevMonths ht hm
        have hml : monthIdx m < monthIdx t := monthIdx_lt_of_mem_prevMonths hm
        have hfl : recFuel first m < recFuel first t :=
          recFuel_lt_of_rec hmr hf hml hk
        have e1 : recAux mc first w n' m = recAux mc first w (recFuel first m) m :=
          ih n' (by omega) m hmr (by omega)
        have e2 : recAux mc first w g m = recAux mc first w (recFuel first m) m :=
          ih g (by omega) m hmr (by omega)
        rw [e1, e2]

/-- The earliest observed month, `sorted_months[0]`. -/
def firstMonth (sorted_months : List MonthKey) : MonthKey :=
  sorted_months.headD ((0 : ℤ), (0 : ℤ))

theorem recursive_forecast_def (sm : List MonthKey)
    (mc : List (MonthKey × ℕ)) (target : MonthKey) (w : ℕ) :
    recursive_forecast sm mc target w =
      recAux mc (firstMonth sm) w (recFuel (firstMonth sm) target) target := rfl

/-- The fixed-point equation of `recursive_forecast`: it is the rounded
mean of the resolved values of the `window_size` preceding months,
where unobserved months at or after the earliest observed month are
resolved by the same function. -/
theorem recursive_forecast_unfold (sm : List MonthKey)
    (mc : List (MonthKey × ℕ)) (target : MonthKey) (w : ℕ)
    (ht : inRangeMonth target) (hf : inRangeMonth (firstMonth sm)) :
    recursive_forecast sm mc target w =
      round2 (mean ((prevMonths target w).map
        (resolveMonth mc (firstMonth sm)
          (fun m => recursive_forecast sm mc m w)))) := by
  rw [recursive_forecast_def]
  obtain ⟨g, hg⟩ : ∃ g, recFuel (firstMonth sm) target = g + 1 :=
    ⟨recFuel (firstMonth sm) target - 1, by have := recFuel_pos (firstMonth sm) target; omega⟩
  rw [hg, recAux_succ]
  congr 2
  apply List.map_congr_left
  intro m hm
  unfold resolveMonth
  cases hl : mc.lookup m with
  | some c => rfl
  | none =>
    simp only []
    by_cases hk : keyLt m (firstMonth sm)
    · rw [if_pos hk, if_pos hk]
    · rw [if_neg hk, if_neg hk]
      have hmr : inRangeMonth m := inRangeMonth_of_mem_prevMonths ht hm
      have hml : monthIdx m < monthIdx target := monthIdx_lt_of_mem_prevMonths hm
      have hfl : recFuel (firstMonth sm) m < recFuel (firstMonth sm) target :=
        recFuel_lt_of_rec hmr hf hml hk
      rw [recursive_forecast_def]
      exact recAux_stable mc hf w g m hmr (by omega)

end CarService

namespace CarService

/-! ### The aggregated dictionary -/

theorem lookup_map_self (g : MonthKey → ℕ) (t : MonthKey) :
    ∀ l : List MonthKey,
      (l.map fun k => (k, g k)).lookup t = if t ∈ l then some (g t) else none := by
  intro l
  induction l with
  | nil => simp [List.lookup]
  | cons a l ih =>
    by_cases h : t = a
    · subst h
      simp [List.lookup]
    · simp only [List.map_cons, List.lookup, beq_false_of_ne h, List.mem_cons]
      rw [ih]
      simp [h]

theorem lookup_monthly_counts (dates : List (List Char)) (t : MonthKey) :
    (monthly_counts dates).lookup t =
      if t ∈ sortedMonths dates then some ((parsedMonths dates).count t)
      else none := by
  unfold monthly_counts
  exact lookup_map_self _ t _

theorem mem_sortedMonths {dates : List (List Char)} {k : MonthKey} :
    k ∈ sortedMonths dates ↔ k ∈ parsedMonths dates := by
  unfold sortedMonths
  rw [(List.perm_insertionSort keyLe _).mem_iff, List.mem_dedup]

theorem length_countsList (dates : List (List Char)) :
    (countsList dates).length = (sortedMonths dates).length :=
  List.length_map _ _

theorem countsList_empty_of_dates_nil : countsList [] = [] := rfl

/-! ### Branch dispatch of `calculate_forecast` -/

theorem calculate_forecast_noData (selYear selMonth : ℤ) (w : ℕ) :
    calculate_forecast [] selYear selMonth w = .noData := rfl

theorem calculate_forecast_insufficient (dates : List (List Char))
    (selYear selMonth : ℤ) (w : ℕ) (hd : dates ≠ [])
    (hn : (countsList dates).length < w) :
    calculate_forecast dates selYear selMonth w =
      .insufficient w (countsList dates).length := by
  unfold calculate_forecast
  rw [if_neg hd, if_pos hn]

theorem calculate_forecast_observed (dates : List (List Char))
    (selYear selMonth : ℤ) (w : ℕ) (a : ℕ) (hd : dates ≠ [])
    (hn : w ≤ (countsList dates).length)
    (hobs : (monthly_counts dates).lookup (selYear, selMonth) = some a) :
    calculate_forecast dates selYear selMonth w =
      .report ⟨(sortedMonths dates).zip (countsList dates),
        observedForecast dates (selYear, selMonth) w,
        max (observedForecast dates (selYear, selMonth) w) 0,
        some a,
        some (if a ≠ 0 then
          (observedForecast dates (selYear, selMonth) w - (a : ℚ)) / (a : ℚ) * 100
        else 0)⟩ := by
  unfold calculate_forecast
  rw [if_neg hd, if_neg (not_lt.2 hn), hobs]

theorem calculate_forecast_unobserved (dates : List (List Char))
    (selYear selMonth : ℤ) (w : ℕ) (hd : dates ≠ [])
    (hn : w ≤ (countsList dates).length)
    (hobs : (monthly_counts dates).lookup (selYear, selMonth) = none) :
    calculate_forecast dates selYear selMonth w =
      .report ⟨(sortedMonths dates).zip (countsList dates),
        recursive_forecast (sortedMonths dates) (monthly_counts dates)
          (selYear, selMonth) w,
        max (recursive_forecast (sortedMonths dates) (monthly_counts dates)
          (selYear, selMonth) w) 0,
        none, none⟩ := by
  unfold calculate_forecast
  rw [if_neg hd, if_neg (not_lt.2 hn), hobs]

end CarService

namespace CarService

/-! ### Indexing facts for the moving-average series -/

theorem length_movingAverages (cs : List ℕ) (w : ℕ) :
    (movingAverages cs w).length = cs.length - (w - 1) := by
  simp [movingAverages]

theorem movingAverages_getElem (cs : List ℕ) (w j : ℕ)
    (h : j < (movingAverages cs w).length) :
    (movingAverages cs w)[j] =
      round2 (mean (((cs.drop (w - 1 + j + 1 - w)).take w).map
        fun c => (c : ℚ))) := by
  unfold movingAverages
  rw [List.getElem_map, List.getElem_range'_1]

theorem mem_of_lookup_some {dates : List (List Char)} {t : MonthKey} {a : ℕ}
    (h : (monthly_counts dates).lookup t = some a) :
    t ∈ sortedMonths dates := by
  rw [lookup_monthly_counts] at h
  by_cases hm : t ∈ sortedMonths dates
  · exact hm
  · rw [if_neg hm] at h
    exact absurd h (by simp)

theorem indexOf_lt_len {l : List MonthKey} {a : MonthKey} (h : a ∈ l) :
    l.indexOf a < l.length :=
  List.findIdx_lt_length_of_exists ⟨a, h, by simp⟩

theorem dates_ne_nil_of_counts {dates : List (List Char)} {w : ℕ}
    (hw : 1 ≤ w) (hn : w ≤ (countsList dates).length) : dates ≠ [] := by
  rintro rfl
  rw [countsList_empty_of_dates_nil] at hn
  simp at hn
  omega

/-- C3: for a target observed at position `idx ≥ window`, the forecast
is `moving_averages[idx - window]`, the rounded mean of the `window`
counts immediately preceding `idx`. -/
theorem forecast_observed_full_window (dates : List (List Char))
    (selYear selMonth : ℤ) (w a : ℕ)
    (hw : 2 ≤ w)
    (hobs : (monthly_counts dates).lookup (selYear, selMonth) = some a)
    (hn : w ≤ (countsList dates).length)
    (hidx : w ≤ (sortedMonths dates).indexOf (selYear, selMonth)) :
    ∃ r : ForecastReport,
      calculate_forecast dates selYear selMonth w = .report r ∧
      r.forecast = (movingAverages (countsList dates) w).getD
        ((sortedMonths dates).indexOf (selYear, selMonth) - w) 0 ∧
      r.forecast = round2 (mean ((((countsList dates).drop
        ((sortedMonths dates).indexOf (selYear, selMonth) - w)).take w).map
          fun c => (c : ℚ))) := by
  have hd : dates ≠ [] := dates_ne_nil_of_counts (by omega) hn
  have hmem : (selYear, selMonth) ∈ sortedMonths dates := mem_of_lookup_some hobs
  have hlt : (sortedMonths dates).indexOf (selYear, selMonth) <
      (countsList dates).length := by
    rw [length_countsList]
    exact indexOf_lt_len hmem
  have hof : observedForecast dates (selYear, selMonth) w =
      (movingAverages (countsList dates) w).getD
        ((sortedMonths dates).indexOf (selYear, selMonth) - w) 0 := by
    unfold observedForecast
    rw [if_pos hidx]
  have hj : (sortedMonths dates).indexOf (selYear, selMonth) - w <
      (movingAverages (countsList dates) w).length := by
    rw [length_movingAverages]
    omega
  refine ⟨_, calculate_forecast_observed dates selYear selMonth w a hd hn hobs,
    hof, ?_⟩
  rw [hof, List.getD_eq_getElem _ _ hj, movingAverages_getElem _ _ _ hj]
  have harith : w - 1 + ((sortedMonths dates).indexOf (selYear, selMonth) - w)
      + 1 - w = (sortedMonths dates).indexOf (selYear, selMonth) - w := by
    omega
  rw [harith]

end CarService

namespace CarService

/-- C1: the recursive forecast of any target month equals the rounded
mean of the `window` resolved values of its `window` calendar
predecessors, where a predecessor resolves to its observed count if it
is in the series, to 0 if it is chronologically before the earliest
observed month, and to its own recursive forecast otherwise. -/
theorem recursive_backfill_is_rounded_mean (sm : List MonthKey)
    (mc : List (MonthKey × ℕ)) (target : MonthKey) (w : ℕ)
    (hw : 2 ≤ w) (ht : inRangeMonth target)
    (hf : inRangeMonth (firstMonth sm))
    (hnot : mc.lookup target = none) :
    (prevMonths target w).length = w ∧
    recursive_forecast sm mc target w =
      round2 (mean ((prevMonths target w).map
        (resolveMonth mc (firstMonth sm)
          (fun m => recursive_forecast sm mc m w)))) :=
  ⟨length_prevMonths target w, recursive_forecast_unfold sm mc target w ht hf⟩

/-- Witness for C1 at a concrete series: one observed month 01/2024,
window 2, target 03/2024 (unobserved). -/
theorem recursive_backfill_is_rounded_mean_witness :
    2 ≤ 2 ∧ inRangeMonth (((2024 : ℤ), (3 : ℤ)) : MonthKey) ∧
    inRangeMonth (firstMonth [(((2024 : ℤ), (1 : ℤ)) : MonthKey)]) ∧
    ([((((2024 : ℤ), (1 : ℤ)) : MonthKey), 2)].lookup
      (((2024 : ℤ), (3 : ℤ)) : MonthKey) = none) ∧
    ((prevMonths (((2024 : ℤ), (3 : ℤ)) : MonthKey) 2).length = 2 ∧
    recursive_forecast [((2024 : ℤ), (1 : ℤ))] [(((2024 : ℤ), (1 : ℤ)), 2)]
        ((2024 : ℤ), (3 : ℤ)) 2 =
      round2 (mean ((prevMonths (((2024 : ℤ), (3 : ℤ)) : MonthKey) 2).map
        (resolveMonth [(((2024 : ℤ), (1 : ℤ)), 2)]
          (firstMonth [((2024 : ℤ), (1 : ℤ))])
          (fun m => recursive_forecast [((2024 : ℤ), (1 : ℤ))]
            [(((2024 : ℤ), (1 : ℤ)), 2)] m 2))))) :=
  ⟨by decide, by decide, by decide, by decide,
    recursive_backfill_is_rounded_mean _ _ _ _ (by decide) (by decide)
      (by decide) (by decide)⟩

/-- C2: the recursive backfill terminates: every predecessor month is
strictly earlier than its target, a month before the earliest observed
month resolves to 0 without any recursive call, and the fuel-indexed
approximations of the recursion agree with the recursive forecast at
every sufficient fuel. -/
theorem recursive_backfill_terminates (sm : List MonthKey)
    (mc : List (MonthKey × ℕ)) (target : MonthKey) (w : ℕ)
    (hsm : sm ≠ []) (hw : 2 ≤ w) (ht : inRangeMonth target)
    (hf : inRangeMonth (firstMonth sm)) :
    (∀ m ∈ prevMonths target w, monthIdx m < monthIdx target) ∧
    (∀ (rec : MonthKey → ℚ) (m : MonthKey), mc.lookup m = none →
      keyLt m (firstMonth sm) →
        resolveMonth mc (firstMonth sm) rec m = 0) ∧
    (∀ n, recFuel (firstMonth sm) target ≤ n →
      recAux mc (firstMonth sm) w n target =
        recursive_forecast sm mc target w) := by
  refine ⟨fun m hm => monthIdx_lt_of_mem_prevMonths hm, ?_, ?_⟩
  · intro rec m hl hk
    simp only [resolveMonth, hl, if_pos hk]
  · intro n hn
    rw [recursive_forecast_def]
    exact recAux_stable mc hf w n target ht hn

/-- Witness for C2 at the concrete series of C1, with extra fuel 10. -/
theorem recursive_backfill_terminates_witness :
    ([(((2024 : ℤ), (1 : ℤ)) : MonthKey)] ≠ []) ∧ 2 ≤ 2 ∧
    inRangeMonth (((2024 : ℤ), (3 : ℤ)) : MonthKey) ∧
    inRangeMonth (firstMonth [(((2024 : ℤ), (1 : ℤ)) : MonthKey)]) ∧
    ((∀ m ∈ prevMonths (((2024 : ℤ), (3 : ℤ)) : MonthKey) 2,
      monthIdx m < monthIdx ((2024 : ℤ), (3 : ℤ))) ∧
    (∀ (rec : MonthKey → ℚ) (m : MonthKey),
      ([(((2024 : ℤ), (1 : ℤ)), 2)] : List (MonthKey × ℕ)).lookup m = none →
      keyLt m (firstMonth [((2024 : ℤ), (1 : ℤ))]) →
        resolveMonth [(((2024 : ℤ), (1 : ℤ)), 2)]
          (firstMonth [((2024 : ℤ), (1 : ℤ))]) rec m = 0) ∧
    (∀ n, recFuel (firstMonth [((2024 : ℤ), (1 : ℤ))]) ((2024 : ℤ), (3 : ℤ)) ≤ n →
      recAux [(((2024 : ℤ), (1 : ℤ)), 2)] (firstMonth [((2024 : ℤ), (1 : ℤ))])
          2 n ((2024 : ℤ), (3 : ℤ)) =
        recursive_forecast [((2024 : ℤ), (1 : ℤ))] [(((2024 : ℤ), (1 : ℤ)), 2)]
          ((2024 : ℤ), (3 : ℤ)) 2)) :=
  ⟨by decide, by decide, by decide, by decide,
    recursive_backfill_terminates _ _ _ _ (by decide) (by decide)
      (by decide) (by decide)⟩

end CarService

namespace CarService

/-- C4: for a target observed at position `0 < idx < window` the
forecast is the rounded plain mean of the counts strictly before `idx`,
and for `idx = 0` it is 0; the recursive backfill is not invoked for
observed targets. -/
theorem forecast_observed_short_window (dates : List (List Char))
    (selYear selMonth : ℤ) (w a : ℕ)
    (hobs : (monthly_counts dates).lookup (selYear, selMonth) = some a)
    (hn : w ≤ (countsList dates).length) (hw : 2 ≤ w)
    (hidx : (sortedMonths dates).indexOf (selYear, selMonth) < w) :
    ∃ r : ForecastReport,
      calculate_forecast dates selYear selMonth w = .report r ∧
      (0 < (sortedMonths dates).indexOf (selYear, selMonth) →
        r.forecast = round2 (mean (((countsList dates).take
          ((sortedMonths dates).indexOf (selYear, selMonth))).map
            fun c => (c : ℚ)))) ∧
      ((sortedMonths dates).indexOf (selYear, selMonth) = 0 →
        r.forecast = 0) := by
  have hd : dates ≠ [] := dates_ne_nil_of_counts (by omega) hn
  refine ⟨_, calculate_forecast_observed dates selYear selMonth w a hd hn hobs,
    ?_, ?_⟩
  · intro h0
    show observedForecast dates (selYear, selMonth) w = _
    unfold observedForecast
    rw [if_neg (by omega), if_pos h0]
  · intro h0
    show observedForecast dates (selYear, selMonth) w = 0
    unfold observedForecast
    rw [if_neg (by omega), if_neg (by omega)]

/-- C5: with a non-empty observed history of fewer distinct months than
the window size, the computation stops with the insufficient-data
outcome carrying required = window and available = number of observed
months, whatever the target month is. -/
theorem forecast_insufficient_data (dates : List (List Char))
    (selYear selMonth : ℤ) (w : ℕ)
    (h1 : 0 < (countsList dates).length)
    (h2 : (countsList dates).length < w) :
    calculate_forecast dates selYear selMonth w =
      .insufficient w (countsList dates).length := by
  have hd : dates ≠ [] := by
    rintro rfl
    rw [countsList_empty_of_dates_nil] at h1
    simp at h1
  exact calculate_forecast_insufficient dates selYear selMonth w hd h2

/-- Witness for C5: one observed month, window 2. -/
theorem forecast_insufficient_data_witness :
    0 < (countsList ["2024-01-05".toList]).length ∧
    (countsList ["2024-01-05".toList]).length < 2 ∧
    calculate_forecast ["2024-01-05".toList] 2024 3 2 =
      .insufficient 2 (countsList ["2024-01-05".toList]).length :=
  ⟨by decide, by decide,
    forecast_insufficient_data _ _ _ _ (by decide) (by decide)⟩

end CarService

namespace CarService

/-- C6 counterexample: a non-empty date list in which nothing parses
(an empty observed history) is answered with the insufficient-data
outcome, not the no-data outcome. -/
theorem noData_counterexample_malformed :
    parsedMonths ["oops".toList] = [] ∧
    calculate_forecast ["oops".toList] 2024 1 2 = .insufficient 2 0 ∧
    calculate_forecast ["oops".toList] 2024 1 2 ≠ .noData :=
  ⟨by decide, by decide, by decide⟩

/-- C6 amended: the no-data outcome is produced exactly for an empty
raw date list; a non-empty list in which no date parses produces the
insufficient-data outcome with available = 0. -/
theorem noData_iff_raw_dates_empty (dates : List (List Char))
    (selYear selMonth : ℤ) (w : ℕ) (hw : 0 < w) :
    (dates = [] → calculate_forecast dates selYear selMonth w = .noData) ∧
    (dates ≠ [] → parsedMonths dates = [] →
      calculate_forecast dates selYear selMonth w = .insufficient w 0) := by
  constructor
  · rintro rfl
    rfl
  · intro hd hp
    have hc : countsList dates = [] := by
      unfold countsList sortedMonths
      rw [hp]
      rfl
    have h0 : (countsList dates).length < w := by
      rw [hc]
      simpa using hw
    have := calculate_forecast_insufficient dates selYear selMonth w hd h0
    rw [hc] at this
    simpa using this

/-- Witness for the amended C6 at a concrete malformed input. -/
theorem noData_iff_raw_dates_empty_witness :
    0 < 2 ∧
    ((["not-a-date".toList] : List (List Char)) = [] →
      calculate_forecast ["not-a-date".toList] 2025 5 2 = .noData) ∧
    ((["not-a-date".toList] : List (List Char)) ≠ [] →
      parsedMonths ["not-a-date".toList] = [] →
      calculate_forecast ["not-a-date".toList] 2025 5 2 = .insufficient 2 0) :=
  ⟨by decide, (noData_iff_raw_dates_empty _ _ _ _ (by decide)).1,
    (noData_iff_raw_dates_empty _ _ _ _ (by decide)).2⟩

/-- C7: for an observed target with actual count `a` the report carries
`actual = a` and deviation `(forecast - a) / a * 100` when `a ≠ 0` and
0 when `a = 0`, computed totally; for an unobserved target neither an
actual value nor a deviation is reported. -/
theorem deviation_reporting (dates : List (List Char))
    (selYear selMonth : ℤ) (w : ℕ)
    (hw : 2 ≤ w) (hn : w ≤ (countsList dates).length) :
    (∀ a : ℕ, (monthly_counts dates).lookup (selYear, selMonth) = some a →
      ∃ r : ForecastReport,
        calculate_forecast dates selYear selMonth w = .report r ∧
        r.actual = some a ∧
        r.deviation = some (if a ≠ 0 then
          (r.forecast - (a : ℚ)) / (a : ℚ) * 100 else 0)) ∧
    ((monthly_counts dates).lookup (selYear, selMonth) = none →
      ∃ r : ForecastReport,
        calculate_forecast dates selYear selMonth w = .report r ∧
        r.actual = none ∧ r.deviation = none) := by
  have hd : dates ≠ [] := dates_ne_nil_of_counts (by omega) hn
  constructor
  · intro a hobs
    exact ⟨_, calculate_forecast_observed dates selYear selMonth w a hd hn hobs,
      rfl, rfl⟩
  · intro hobs
    exact ⟨_, calculate_forecast_unobserved dates selYear selMonth w hd hn hobs,
      rfl, rfl⟩

/-- C8: at a target a century past the two observed months, the code
still produces a computed report whose forecast is the unmemoized,
uncapped recursion — there is no distance bound with a distinguishable
error outcome. -/
theorem far_target_still_computed :
    calculate_forecast ["2024-01-10".toList, "2024-02-10".toList] 2124 1 2 =
      .report ⟨(sortedMonths ["2024-01-10".toList, "2024-02-10".toList]).zip
          (countsList ["2024-01-10".toList, "2024-02-10".toList]),
        recursive_forecast (sortedMonths ["2024-01-10".toList, "2024-02-10".toList])
          (monthly_counts ["2024-01-10".toList, "2024-02-10".toList])
          ((2124 : ℤ), (1 : ℤ)) 2,
        max (recursive_forecast (sortedMonths ["2024-01-10".toList, "2024-02-10".toList])
          (monthly_counts ["2024-01-10".toList, "2024-02-10".toList])
          ((2124 : ℤ), (1 : ℤ)) 2) 0,
        none, none⟩ :=
  calculate_forecast_unobserved _ _ _ _ (by decide) (by decide) (by decide)

/-- C9: the monthly aggregation maps each observed month to a count at
least 1 and the counts total the number of successfully parsed dates;
malformed strings are dropped individually and never abort the batch. -/
theorem aggregation_invariant (dates : List (List Char)) :
    (((monthly_counts dates).map fun p => p.2).sum =
      (parsedMonths dates).length) ∧
    (∀ p ∈ monthly_counts dates, 1 ≤ p.2) := by
  constructor
  · unfold monthly_counts
    rw [List.map_map]
    have hperm : List.Perm (List.insertionSort keyLe (parsedMonths dates).dedup)
        (parsedMonths dates).dedup := List.perm_insertionSort keyLe _
    have hmapped := hperm.map fun k => (parsedMonths dates).count k
    show (List.map (fun k => (parsedMonths dates).count k) (sortedMonths dates)).sum = _
    unfold sortedMonths
    rw [hmapped.sum_eq]
    exact List.sum_map_count_dedup_eq_length (parsedMonths dates)
  · intro p hp
    unfold monthly_counts at hp
    obtain ⟨k, hk, rfl⟩ := List.mem_map.1 hp
    have hmem : k ∈ parsedMonths dates := mem_sortedMonths.1 hk
    simpa using List.count_pos_iff.2 hmem

end CarService

namespace CarService

/-- C10: under the checked preconditions every partial operation of the
computation stays inside its domain: the sorted month list is
non-empty, the moving-average list has length `n - (w - 1)` and the
access at `idx - w` is in range for every observed target with
`idx ≥ w`, the prefix `counts[:idx]` averaged for `0 < idx` is
non-empty, and the recursive backfill always averages exactly `w ≥ 2`
values. -/
theorem forecast_partial_ops_safe (dates : List (List Char)) (w : ℕ)
    (hw : 2 ≤ w) (hn : w ≤ (countsList dates).length) :
    sortedMonths dates ≠ [] ∧
    (movingAverages (countsList dates) w).length =
      (countsList dates).length - (w - 1) ∧
    (∀ t : MonthKey, t ∈ sortedMonths dates →
      (w ≤ (sortedMonths dates).indexOf t →
        (sortedMonths dates).indexOf t - w <
          (movingAverages (countsList dates) w).length) ∧
      (0 < (sortedMonths dates).indexOf t →
        ((countsList dates).take ((sortedMonths dates).indexOf t)).length ≠ 0)) ∧
    (∀ t : MonthKey, (prevMonths t w).length = w ∧ 2 ≤ w) := by
  have hlen : (countsList dates).length = (sortedMonths dates).length :=
    length_countsList dates
  refine ⟨?_, length_movingAverages _ _, ?_, fun t => ⟨length_prevMonths t w, hw⟩⟩
  · have : 0 < (sortedMonths dates).length := by omega
    exact List.length_pos.1 this
  · intro t hmem
    have hidx : (sortedMonths dates).indexOf t < (sortedMonths dates).length :=
      indexOf_lt_len hmem
    constructor
    · intro hge
      rw [length_movingAverages]
      omega
    · intro hpos
      rw [List.length_take]
      omega

/-- Witness for C10: two observed months, window 2. -/
theorem forecast_partial_ops_safe_witness :
    2 ≤ 2 ∧ 2 ≤ (countsList ["2024-01-01".toList, "2024-02-01".toList]).length ∧
    (sortedMonths ["2024-01-01".toList, "2024-02-01".toList] ≠ [] ∧
    (movingAverages (countsList ["2024-01-01".toList, "2024-02-01".toList]) 2).length =
      (countsList ["2024-01-01".toList, "2024-02-01".toList]).length - (2 - 1) ∧
    (∀ t : MonthKey, t ∈ sortedMonths ["2024-01-01".toList, "2024-02-01".toList] →
      (2 ≤ (sortedMonths ["2024-01-01".toList, "2024-02-01".toList]).indexOf t →
        (sortedMonths ["2024-01-01".toList, "2024-02-01".toList]).indexOf t - 2 <
          (movingAverages (countsList ["2024-01-01".toList, "2024-02-01".toList]) 2).length) ∧
      (0 < (sortedMonths ["2024-01-01".toList, "2024-02-01".toList]).indexOf t →
        ((countsList ["2024-01-01".toList, "2024-02-01".toList]).take
          ((sortedMonths ["2024-01-01".toList, "2024-02-01".toList]).indexOf t)).length ≠ 0)) ∧
    (∀ t : MonthKey, (prevMonths t 2).length = 2 ∧ 2 ≤ 2)) :=
  ⟨by decide, by decide,
    forecast_partial_ops_safe ["2024-01-01".toList, "2024-02-01".toList] 2
      (by decide) (by decide)⟩

/-- Witness for C3: three observed months, window 2, target the third
month (index 2). -/
theorem forecast_observed_full_window_witness :
    2 ≤ 2 ∧
    (monthly_counts ["2024-01-01".toList, "2024-02-01".toList, "2024-03-01".toList]).lookup
      (((2024 : ℤ), (3 : ℤ)) : MonthKey) = some 1 ∧
    2 ≤ (countsList ["2024-01-01".toList, "2024-02-01".toList, "2024-03-01".toList]).length ∧
    2 ≤ (sortedMonths ["2024-01-01".toList, "2024-02-01".toList, "2024-03-01".toList]).indexOf
      (((2024 : ℤ), (3 : ℤ)) : MonthKey) ∧
    (∃ r : ForecastReport,
      calculate_forecast ["2024-01-01".toList, "2024-02-01".toList, "2024-03-01".toList]
        2024 3 2 = .report r ∧
      r.forecast = (movingAverages
        (countsList ["2024-01-01".toList, "2024-02-01".toList, "2024-03-01".toList]) 2).getD
        ((sortedMonths ["2024-01-01".toList, "2024-02-01".toList, "2024-03-01".toList]).indexOf
          (((2024 : ℤ), (3 : ℤ)) : MonthKey) - 2) 0 ∧
      r.forecast = round2 (mean ((((countsList
        ["2024-01-01".toList, "2024-02-01".toList, "2024-03-01".toList]).drop
        ((sortedMonths ["2024-01-01".toList, "2024-02-01".toList, "2024-03-01".toList]).indexOf
          (((2024 : ℤ), (3 : ℤ)) : MonthKey) - 2)).take 2).map
            fun c => (c : ℚ)))) :=
  ⟨by decide, by decide, by decide, by decide,
    forecast_observed_full_window _ 2024 3 2 1 (by decide) (by decide)
      (by decide) (by decide)⟩

/-- Witness for C4: three observed months, window 2, target the second
month (index 1 < 2). -/
theorem forecast_observed_short_window_witness :
    (monthly_counts ["2024-01-01".toList, "2024-02-01".toList, "2024-03-01".toList]).lookup
      (((2024 : ℤ), (2 : ℤ)) : MonthKey) = some 1 ∧
    2 ≤ (countsList ["2024-01-01".toList, "2024-02-01".toList, "2024-03-01".toList]).length ∧
    2 ≤ 2 ∧
    (sortedMonths ["2024-01-01".toList, "2024-02-01".toList, "2024-03-01".toList]).indexOf
      (((2024 : ℤ), (2 : ℤ)) : MonthKey) < 2 ∧
    (∃ r : ForecastReport,
      calculate_forecast ["2024-01-01".toList, "2024-02-01".toList, "2024-03-01".toList]
        2024 2 2 = .report r ∧
      (0 < (sortedMonths ["2024-01-01".toList, "2024-02-01".toList, "2024-03-01".toList]).indexOf
          (((2024 : ℤ), (2 : ℤ)) : MonthKey) →
        r.forecast = round2 (mean (((countsList
          ["2024-01-01".toList, "2024-02-01".toList, "2024-03-01".toList]).take
          ((sortedMonths ["2024-01-01".toList, "2024-02-01".toList, "2024-03-01".toList]).indexOf
            (((2024 : ℤ), (2 : ℤ)) : MonthKey))).map fun c => (c : ℚ)))) ∧
      ((sortedMonths ["2024-01-01".toList, "2024-02-01".toList, "2024-03-01".toList]).indexOf
          (((2024 : ℤ), (2 : ℤ)) : MonthKey) = 0 →
        r.forecast = 0)) :=
  ⟨by decide, by decide, by decide, by decide,
    forecast_observed_short_window _ 2024 2 2 1 (by decide) (by decide)
      (by decide) (by decide)⟩

/-- Witness for C7: two observed months, window 2, applied at the
observed target 02/2024 (count 1) and at the unobserved 05/2024. -/
theorem deviation_reporting_witness :
    2 ≤ 2 ∧ 2 ≤ (countsList ["2024-01-01".toList, "2024-02-01".toList]).length ∧
    ((∀ a : ℕ, (monthly_counts ["2024-01-01".toList, "2024-02-01".toList]).lookup
        (((2024 : ℤ), (2 : ℤ)) : MonthKey) = some a →
      ∃ r : ForecastReport,
        calculate_forecast ["2024-01-01".toList, "2024-02-01".toList] 2024 2 2 = .report r ∧
        r.actual = some a ∧
        r.deviation = some (if a ≠ 0 then
          (r.forecast - (a : ℚ)) / (a : ℚ) * 100 else 0)) ∧
    ((monthly_counts ["2024-01-01".toList, "2024-02-01".toList]).lookup
        (((2024 : ℤ), (2 : ℤ)) : MonthKey) = none →
      ∃ r : ForecastReport,
        calculate_forecast ["2024-01-01".toList, "2024-02-01".toList] 2024 2 2 = .report r ∧
        r.actual = none ∧ r.deviation = none)) :=
  ⟨by decide, by decide,
    deviation_reporting ["2024-01-01".toList, "2024-02-01".toList] 2024 2 2
      (by decide) (by decide)⟩

end CarService
